import Mathlib

/-!
Verification of the RK4 projectile-trajectory simulator (`main.cpp`) against its
natural-language specification.

The C++ program works on IEEE doubles; we embed its arithmetic over an arbitrary
linear ordered field `α` (exact arithmetic), instantiated at `ℚ` for concrete
evaluation and at `ℝ` where the initial conditions involve `sin`/`cos`.
Every definition below mirrors one source entity of `main.cpp` and is named
after it where Lean allows.
-/

namespace TrajectoryRK4

variable {α : Type} [LinearOrderedField α]

/-- Source constant `g = -9.80665` (main.cpp:29): gravity, the vertical
acceleration in m/s². -/
def g : α := -9.80665

/-- Source constant `re = 6371000.0` (main.cpp:30): mean radius of Earth in
meters. -/
def re : α := 6371000

/-- Source constant `a = 0.0` (main.cpp:31): horizontal acceleration. -/
def a : α := 0

/-- Source constant `pi = 3.14159265358979323846` (main.cpp:32). -/
def pi : α := 3.14159265358979323846

/-- Source constant `deg2rad = pi / 180.0` (main.cpp:33). -/
def deg2rad : α := pi / 180

/-- Source struct `State` (main.cpp:35-41): position and velocity of the
projectile on both axes. -/
@[ext]
structure State (α : Type) where
  vertPos : α
  horzPos : α
  vertVel : α
  horzVel : α
deriving DecidableEq, Repr

/-- Source struct `Derivative` (main.cpp:43-49): the rate of change of a
`State` (velocities and accelerations). -/
@[ext]
structure Derivative (α : Type) where
  vertVel : α
  horzVel : α
  vertAcc : α
  horzAcc : α
deriving DecidableEq, Repr

/-- Source function `computeVertAcc` (main.cpp:166-174):
`g * (re / (re + state.vertPos)) * (re / (re + state.vertPos))`. -/
def computeVertAcc (state : State α) : α :=
  g * (re / (re + state.vertPos)) * (re / (re + state.vertPos))

/-- Source function `computeHorzAcc` (main.cpp:176-180): returns the constant
`a`. -/
def computeHorzAcc (_state : State α) : α := a

/-- Source function `evaluate` (one-argument overload, main.cpp:182-190):
the derivative of `p` with no offset, the k1 stage. -/
def evaluate (p : State α) : Derivative α :=
  { vertVel := p.vertVel
    vertAcc := computeVertAcc p
    horzVel := p.horzVel
    horzAcc := computeHorzAcc p }

/-- Source function `evaluate` (three-argument overload, main.cpp:192-212),
named `evaluateAt` here because Lean does not overload by arity: advances
`initP` by Euler's method with `pPrime` over `deltaTime`, then takes the
derivative at that intermediate state. -/
def evaluateAt (initP : State α) (deltaTime : α) (pPrime : Derivative α) :
    Derivative α :=
  let p : State α :=
    { vertPos := initP.vertPos + pPrime.vertVel * deltaTime
      vertVel := initP.vertVel + pPrime.vertAcc * deltaTime
      horzPos := initP.horzPos + pPrime.horzVel * deltaTime
      horzVel := initP.horzVel + pPrime.horzAcc * deltaTime }
  { vertVel := p.vertVel
    vertAcc := computeVertAcc p
    horzVel := p.horzVel
    horzAcc := computeHorzAcc p }

/-- Source function `rk4` (main.cpp:214-236). The C++ version mutates `state`
in place; here the updated state is returned. -/
def rk4 (state : State α) (deltaTime : α) : State α :=
  let k1 := evaluate state
  let k2 := evaluateAt state (deltaTime / 2) k1
  let k3 := evaluateAt state (deltaTime / 2) k2
  let k4 := evaluateAt state deltaTime k3
  let deltaVertVel := (k1.vertVel + 2 * (k2.vertVel + k3.vertVel) + k4.vertVel) / 6
  let deltaVertAcc := (k1.vertAcc + 2 * (k2.vertAcc + k3.vertAcc) + k4.vertAcc) / 6
  let deltaHorzVel := (k1.horzVel + 2 * (k2.horzVel + k3.horzVel) + k4.horzVel) / 6
  let deltaHorzAcc := (k1.horzAcc + 2 * (k2.horzAcc + k3.horzAcc) + k4.horzAcc) / 6
  { vertPos := state.vertPos + deltaVertVel * deltaTime
    vertVel := state.vertVel + deltaVertAcc * deltaTime
    horzPos := state.horzPos + deltaHorzVel * deltaTime
    horzVel := state.horzVel + deltaHorzAcc * deltaTime }

/-- Spec-side restatement of the Step operation (spec §4.2, steps 1-6): the
four stages, the weighted average written `(k1 + 2*k2 + 2*k3 + k4) / 6`
component-wise, and the two axis-independent updates. Used only to compare
against `rk4`. -/
def rk4Spec (state : State α) (deltaTime : α) : State α :=
  let k1 := evaluate state
  let k2 := evaluateAt state (deltaTime / 2) k1
  let k3 := evaluateAt state (deltaTime / 2) k2
  let k4 := evaluateAt state deltaTime k3
  let avgVertVel := (k1.vertVel + 2 * k2.vertVel + 2 * k3.vertVel + k4.vertVel) / 6
  let avgVertAcc := (k1.vertAcc + 2 * k2.vertAcc + 2 * k3.vertAcc + k4.vertAcc) / 6
  let avgHorzVel := (k1.horzVel + 2 * k2.horzVel + 2 * k3.horzVel + k4.horzVel) / 6
  let avgHorzAcc := (k1.horzAcc + 2 * k2.horzAcc + 2 * k3.horzAcc + k4.horzAcc) / 6
  { vertPos := state.vertPos + avgVertVel * deltaTime
    vertVel := state.vertVel + avgVertAcc * deltaTime
    horzPos := state.horzPos + avgHorzVel * deltaTime
    horzVel := state.horzVel + avgHorzAcc * deltaTime }

/-- Spec-side restatement of the Euler advance inside EvaluateAt (spec §4.2):
`pos' = pos + vel*dt`, `vel' = vel + acc*dt` for both axes, with the
velocities and accelerations taken from the prior derivative. -/
def eulerAdvance (baseState : State α) (dt : α) (d : Derivative α) : State α :=
  { vertPos := baseState.vertPos + d.vertVel * dt
    horzPos := baseState.horzPos + d.horzVel * dt
    vertVel := baseState.vertVel + d.vertAcc * dt
    horzVel := baseState.horzVel + d.horzAcc * dt }

/-- C1: for every state and time step, `rk4` computes k1 through k4 exactly as
the spec stages them, combines each scalar component as
`(k1 + 2*k2 + 2*k3 + k4) / 6`, and updates position by the average velocity
times dt and velocity by the average acceleration times dt, independently per
axis. -/
theorem rk4_agrees_with_spec_stages (state : State α) (deltaTime : α) :
    rk4 state deltaTime = rk4Spec state deltaTime := by
  ext <;> simp only [rk4, rk4Spec] <;> ring

/-- C3: `computeVertAcc` returns `g * (re/(re + vertPos))²` for every state,
where `g` is the negative constant `-9.80665` and `re` is `6371000`; the
function is total (no error conditions). -/
theorem computeVertAcc_formula (s : State α) :
    computeVertAcc s = g * (re / (re + s.vertPos)) ^ 2 ∧
      (g : α) = -9.80665 ∧ (re : α) = 6371000 ∧ (g : α) < 0 := by
  refine ⟨?_, rfl, rfl, ?_⟩
  · simp only [computeVertAcc]; ring
  · norm_num [g]

/-- C4: `computeHorzAcc` returns exactly 0 for every input state. -/
theorem computeHorzAcc_eq_zero (s : State α) : computeHorzAcc s = 0 := rfl

/-- C5: the three-argument evaluate overload first advances the base state by
Euler's method with the prior derivative and then returns the derivative whose
velocity components are the intermediate state's velocities and whose
acceleration components are the physics model applied to that intermediate
state. -/
theorem evaluateAt_euler_then_physics (initP : State α) (deltaTime : α)
    (pPrime : Derivative α) :
    evaluateAt initP deltaTime pPrime =
      { vertVel := (eulerAdvance initP deltaTime pPrime).vertVel
        horzVel := (eulerAdvance initP deltaTime pPrime).horzVel
        vertAcc := computeVertAcc (eulerAdvance initP deltaTime pPrime)
        horzAcc := computeHorzAcc (eulerAdvance initP deltaTime pPrime) } := rfl

lemma rk4_zero (s : State α) : rk4 s 0 = s := by
  ext <;> simp [rk4, evaluate, evaluateAt]

/-- C7: a step with `deltaTime = 0` returns the state unchanged, all four
fields exactly equal. -/
theorem rk4_zero_dt_fixed (s : State α) : rk4 s 0 = s := rk4_zero s

lemma rk4_horzVel_eq (s : State α) (dt : α) : (rk4 s dt).horzVel = s.horzVel := by
  simp [rk4, evaluate, evaluateAt, computeHorzAcc, a]

lemma rk4_horzPos_eq (s : State α) (dt : α) :
    (rk4 s dt).horzPos = s.horzPos + s.horzVel * dt := by
  simp only [rk4, evaluate, evaluateAt, computeHorzAcc, a]
  ring

/-- C10: one `rk4` step leaves `horzVel` exactly unchanged and changes
`horzPos` by exactly `horzVel * dt`, and indeed every one of the four stage
derivatives carries the unchanged horizontal velocity (the horizontal
acceleration being the constant 0). -/
theorem rk4_horizontal_exact (s : State α) (dt : α) :
    (rk4 s dt).horzVel = s.horzVel ∧
    (rk4 s dt).horzPos = s.horzPos + s.horzVel * dt ∧
    (evaluate s).horzVel = s.horzVel ∧
    (evaluateAt s (dt / 2) (evaluate s)).horzVel = s.horzVel ∧
    (evaluateAt s (dt / 2) (evaluateAt s (dt / 2) (evaluate s))).horzVel = s.horzVel ∧
    (evaluateAt s dt
      (evaluateAt s (dt / 2) (evaluateAt s (dt / 2) (evaluate s)))).horzVel = s.horzVel := by
  refine ⟨rk4_horzVel_eq s dt, rk4_horzPos_eq s dt, rfl, ?_, ?_, ?_⟩ <;>
    · simp only [evaluate, evaluateAt, computeHorzAcc, a]
      ring

/-- C6: strictly higher altitude gives a strictly smaller magnitude of the
vertical acceleration, for every pair of altitudes above `-re`. -/
theorem vertAcc_magnitude_strict_anti (s1 s2 : State α)
    (h1 : -re < s1.vertPos) (h2 : -re < s2.vertPos)
    (hlt : s1.vertPos < s2.vertPos) :
    |computeVertAcc s2| < |computeVertAcc s1| := by
  have hre : (re : α) = 6371000 := rfl
  have hg : (g : α) = -9.80665 := rfl
  have hgneg : (g : α) < 0 := by rw [hg]; norm_num
  have hrepos : (0 : α) < re := by rw [hre]; norm_num
  have hd1 : (0 : α) < re + s1.vertPos := by linarith
  have hd2 : (0 : α) < re + s2.vertPos := by linarith
  set x := re / (re + s1.vertPos) with hxdef
  set y := re / (re + s2.vertPos) with hydef
  have hxpos : 0 < x := div_pos hrepos hd1
  have hypos : 0 < y := div_pos hrepos hd2
  have hyx : y < x := by
    rw [hxdef, hydef]
    exact div_lt_div_of_pos_left hrepos hd1 (by linarith)
  have e1 : computeVertAcc s1 = g * x * x := rfl
  have e2 : computeVertAcc s2 = g * y * y := rfl
  have hgx : g * x < 0 := mul_neg_of_neg_of_pos hgneg hxpos
  have hgy : g * y < 0 := mul_neg_of_neg_of_pos hgneg hypos
  rw [e1, e2, abs_of_nonpos (by nlinarith), abs_of_nonpos (by nlinarith)]
  have hsq : y * y < x * x := by nlinarith
  nlinarith [mul_lt_mul_of_neg_left hsq hgneg]

/-- Witness for C6 at the concrete altitudes 0 and 1 over `ℚ`. -/
theorem vertAcc_magnitude_strict_anti_witness :
    |computeVertAcc ({ vertPos := 1, horzPos := 0, vertVel := 0, horzVel := 0 } : State ℚ)| <
      |computeVertAcc ({ vertPos := 0, horzPos := 0, vertVel := 0, horzVel := 0 } : State ℚ)| :=
  vertAcc_magnitude_strict_anti
    ({ vertPos := 0, horzPos := 0, vertVel := 0, horzVel := 0 } : State ℚ)
    ({ vertPos := 1, horzPos := 0, vertVel := 0, horzVel := 0 } : State ℚ)
    (by decide) (by decide) (by decide)

/-- Source main.cpp:130: on the command-line-argument path the firing angle is
`strtod(argv[3], NULL)`, passed on to the simulation with no range check of
any kind (every string parses to some double under `strtod`, defaulting
to 0). -/
def cliFiringAngle (angleArg : α) : α := angleArg

/-- Source main.cpp:82-91: interactive acquisition of the firing angle. The
stream of `cin >>` parse attempts is modelled as a list, `none` standing for a
failed parse (`cin.fail()`) and `some x` for a parsed value `x`; the loop
re-prompts while the parse failed or the value lies outside `[0, 90]`, and
`none` is returned when the stream is exhausted (the C++ loop would still be
running). -/
def promptedFiringAngle : List (Option α) → Option α
  | [] => none
  | none :: rest => promptedFiringAngle rest
  | some x :: rest =>
    if 0 ≤ x ∧ x ≤ 90 then some x else promptedFiringAngle rest

/-- C8 counterexample: on the command-line path an out-of-range angle (120°)
reaches the simulation untouched, so the claim that every input-acquisition
path constrains the angle to `[0, 90]` is false. -/
theorem cli_angle_unvalidated :
    cliFiringAngle (120 : ℚ) = 120 ∧
      ¬ (0 ≤ cliFiringAngle (120 : ℚ) ∧ cliFiringAngle (120 : ℚ) ≤ 90) := by
  decide

/-- C8 amended: on the interactive path, any angle the prompting loop actually
delivers lies in `[0, 90]`; unparsable or out-of-range attempts are skipped. -/
theorem prompted_angle_in_range (ins : List (Option α)) (x : α)
    (h : promptedFiringAngle ins = some x) : 0 ≤ x ∧ x ≤ 90 := by
  induction ins with
  | nil => simp [promptedFiringAngle] at h
  | cons head rest ih =>
    cases head with
    | none =>
      exact ih (by simpa [promptedFiringAngle] using h)
    | some y =>
      simp only [promptedFiringAngle] at h
      split_ifs at h with hy
      · cases h; exact hy
      · exact ih h

/-- Witness for the amended C8: a stream with a bad value and a failed parse
before a valid 45° still delivers an in-range angle. -/
theorem prompted_angle_in_range_witness : (0 : ℚ) ≤ 45 ∧ (45 : ℚ) ≤ 90 :=
  prompted_angle_in_range [some 120, none, some 45] 45 (by decide)

/-- Source main.cpp:148-159: the driving loop, modelled with an explicit fuel
bound (the C++ loop has no such bound and may run forever when `deltaTime` is
0). Each performed step appends the pair (elapsed time after the step, state
after the step), exactly what the loop body reports; the loop body runs only
while `currentTime < finalTime` and `0 ≤ p.vertPos`. -/
def driveLoop : Nat → α → α → α → State α → List (α × State α)
  | 0, _, _, _, _ => []
  | n + 1, currentTime, finalTime, deltaTime, p =>
    if currentTime < finalTime ∧ 0 ≤ p.vertPos then
      (currentTime + deltaTime, rk4 p deltaTime) ::
        driveLoop n (currentTime + deltaTime) finalTime deltaTime (rk4 p deltaTime)
    else []

lemma driveLoop_entry_guard {n : Nat} {t fT dt : α} {p : State α}
    {e : α × State α} (h : (driveLoop n t fT dt p).get? 0 = some e) :
    t < fT ∧ 0 ≤ p.vertPos := by
  cases n with
  | zero => simp [driveLoop] at h
  | succ m =>
    by_cases hg : t < fT ∧ 0 ≤ p.vertPos
    · exact hg
    · rw [driveLoop, if_neg hg] at h
      simp at h

/-- C9: the driving loop steps exactly while `elapsedTime < finalTime` and
`vertPos ≥ 0`: it performs no step at all when the guard fails at entry, and
whenever a further step follows a recorded step, the earlier step's elapsed
time was below `finalTime` and its state's `vertPos` was non-negative — so
stepping stops at or before the entry whose `vertPos` first becomes
negative. -/
theorem driveLoop_guard_policy (fuel : Nat) (t fT dt : α) (p : State α) :
    (¬ (t < fT ∧ 0 ≤ p.vertPos) → driveLoop fuel t fT dt p = []) ∧
    (∀ i e e2, (driveLoop fuel t fT dt p).get? i = some e →
      (driveLoop fuel t fT dt p).get? (i + 1) = some e2 →
      e.1 < fT ∧ 0 ≤ e.2.vertPos) := by
  constructor
  · intro hg
    cases fuel with
    | zero => rfl
    | succ n => rw [driveLoop, if_neg hg]
  · induction fuel generalizing t p with
    | zero =>
      intro i e e2 h _
      simp [driveLoop] at h
    | succ n ih =>
      intro i e e2 h h2
      by_cases hg : t < fT ∧ 0 ≤ p.vertPos
      · rw [driveLoop, if_pos hg] at h h2
        cases i with
        | zero =>
          rw [List.get?_cons_zero] at h
          cases h
          rw [List.get?_cons_succ] at h2
          exact driveLoop_entry_guard h2
        | succ j =>
          rw [List.get?_cons_succ] at h h2
          exact ih (t + dt) (rk4 p dt) j e e2 h h2
      · rw [driveLoop, if_neg hg] at h
        simp at h

/-- Witness for C9: with the guard false at entry no step is performed, and a
recorded step that is followed by another satisfies the guard facts. -/
theorem driveLoop_guard_policy_witness :
    driveLoop 1 (5 : ℚ) 3 1
        ({ vertPos := 0, horzPos := 0, vertVel := 0, horzVel := 0 } : State ℚ) = [] ∧
    ((0 : ℚ) < 3 ∧ (0 : ℚ) ≤
      ({ vertPos := 10, horzPos := 0, vertVel := 0, horzVel := 0 } : State ℚ).vertPos) := by
  have hp : rk4 ({ vertPos := 10, horzPos := 0, vertVel := 0, horzVel := 0 } : State ℚ) 0
      = { vertPos := 10, horzPos := 0, vertVel := 0, horzVel := 0 } := rk4_zero _
  have htrace : driveLoop 2 (0 : ℚ) 3 0
      ({ vertPos := 10, horzPos := 0, vertVel := 0, horzVel := 0 } : State ℚ)
      = [((0 : ℚ), { vertPos := 10, horzPos := 0, vertVel := 0, horzVel := 0 }),
         ((0 : ℚ), { vertPos := 10, horzPos := 0, vertVel := 0, horzVel := 0 })] := by
    norm_num [driveLoop, hp]
  constructor
  · exact (driveLoop_guard_policy 1 (5 : ℚ) 3 1
      ({ vertPos := 0, horzPos := 0, vertVel := 0, horzVel := 0 } : State ℚ)).1 (by decide)
  · exact (driveLoop_guard_policy 2 (0 : ℚ) 3 0
      ({ vertPos := 10, horzPos := 0, vertVel := 0, horzVel := 0 } : State ℚ)).2 0
      ((0 : ℚ), { vertPos := 10, horzPos := 0, vertVel := 0, horzVel := 0 })
      ((0 : ℚ), { vertPos := 10, horzPos := 0, vertVel := 0, horzVel := 0 })
      (by rw [htrace]; rfl) (by rw [htrace]; rfl)

/-- Source main.cpp:135-141: the initial state built by `main` from the user
parameters: the firing angle in degrees is converted to radians with the
program's own `deg2rad` (whose `pi` is the source's 21-digit literal), the
velocity is decomposed by `sin`/`cos`, and the horizontal position starts
at 0. -/
noncomputable def mainInitState (initAlt initVel firingAngleDeg : ℝ) : State ℝ :=
  { vertPos := initAlt
    horzPos := 0
    vertVel := initVel * Real.sin (firingAngleDeg * deg2rad)
    horzVel := initVel * Real.cos (firingAngleDeg * deg2rad) }

/-- Vertical acceleration as a function of the altitude alone; `computeVertAcc`
reads only `vertPos`, so this is the same expression. -/
def vertAccAt (h : α) : α := g * (re / (re + h)) * (re / (re + h))

lemma computeVertAcc_as_vertAccAt (s : State α) :
    computeVertAcc s = vertAccAt s.vertPos := rfl

lemma rk4_vertVel_closed (s : State α) (dt : α) :
    (rk4 s dt).vertVel =
      s.vertVel +
        ((vertAccAt s.vertPos
            + 2 * (vertAccAt (s.vertPos + s.vertVel * (dt / 2))
                + vertAccAt (s.vertPos
                    + (s.vertVel + vertAccAt s.vertPos * (dt / 2)) * (dt / 2)))
            + vertAccAt (s.vertPos
                + (s.vertVel
                    + vertAccAt (s.vertPos + s.vertVel * (dt / 2)) * (dt / 2)) * dt)) / 6)
          * dt := rfl

lemma vertAccAt_zero : vertAccAt (0 : α) = g := by
  norm_num [vertAccAt, re]

lemma vertAccAt_bounds (h : ℝ) (h0 : 0 ≤ h) (h1 : h ≤ 1) :
    g ≤ vertAccAt h ∧ vertAccAt h ≤ g + 1 / 100000 := by
  have hre : (re : ℝ) = 6371000 := rfl
  have hg : (g : ℝ) = -9.80665 := rfl
  have hd0 : (0 : ℝ) < re + h := by rw [hre]; linarith
  have hrley : re / (re + h) ≤ 1 := div_le_one_of_le (by linarith) hd0.le
  have hrpos : 0 < re / (re + h) := div_pos (by rw [hre]; norm_num) hd0
  have hrlow : (6371000 : ℝ) / 6371001 ≤ re / (re + h) := by
    rw [hre]
    gcongr
    linarith
  have e : vertAccAt h = g * (re / (re + h)) * (re / (re + h)) := rfl
  rw [e, hg]
  constructor
  · nlinarith [mul_le_one hrley hrpos.le hrley]
  · nlinarith [mul_le_mul hrlow hrlow (by norm_num) hrpos.le]

lemma abs_sin_sub_le (x y : ℝ) : |Real.sin x - Real.sin y| ≤ |x - y| := by
  rw [Real.sin_sub_sin]
  calc |2 * Real.sin ((x - y) / 2) * Real.cos ((x + y) / 2)|
      = 2 * |Real.sin ((x - y) / 2)| * |Real.cos ((x + y) / 2)| := by
        rw [abs_mul, abs_mul, abs_two]
    _ ≤ 2 * |(x - y) / 2| * 1 := by
        apply mul_le_mul ?_ (Real.abs_cos_le_one _) (abs_nonneg _) (by positivity)
        exact mul_le_mul_of_nonneg_left Real.abs_sin_le_abs (by norm_num)
    _ = |x - y| := by rw [abs_div, abs_two]; ring

lemma abs_cos_sub_le (x y : ℝ) : |Real.cos x - Real.cos y| ≤ |x - y| := by
  rw [Real.cos_sub_cos]
  calc |(-2) * Real.sin ((x + y) / 2) * Real.sin ((x - y) / 2)|
      = 2 * |Real.sin ((x + y) / 2)| * |Real.sin ((x - y) / 2)| := by
        rw [abs_mul, abs_mul]
        norm_num
    _ ≤ 2 * 1 * |(x - y) / 2| := by
        apply mul_le_mul ?_ Real.abs_sin_le_abs (abs_nonneg _) (by positivity)
        exact mul_le_mul_of_nonneg_left (Real.abs_sin_le_one _) (by norm_num)
    _ = |x - y| := by rw [abs_div, abs_two]; ring

lemma pi_lit_close : |(pi : ℝ) - Real.pi| ≤ 1 / 1000000 := by
  have h1 := Real.pi_gt_3141592
  have h2 := Real.pi_lt_3141593
  have h3 : (pi : ℝ) = 3.14159265358979323846 := rfl
  rw [h3, abs_le]
  constructor <;> norm_num <;> linarith

lemma sqrt_two_bounds : 1.4142135 ≤ Real.sqrt 2 ∧ Real.sqrt 2 ≤ 1.4142136 := by
  have h := Real.sq_sqrt (show (0 : ℝ) ≤ 2 by norm_num)
  have hnn := Real.sqrt_nonneg 2
  constructor <;> nlinarith

lemma angle45_rad : (45 : ℝ) * deg2rad = pi / 4 := by
  rw [deg2rad]; ring

lemma quarter_pi_close : |(pi : ℝ) / 4 - Real.pi / 4| ≤ 1 / 4000000 := by
  have heq : (pi : ℝ) / 4 - Real.pi / 4 = ((pi : ℝ) - Real.pi) / 4 := by ring
  rw [heq, abs_div, abs_of_pos (show (0 : ℝ) < 4 by norm_num)]
  linarith [pi_lit_close]

lemma sin45_bounds :
    70.7105 ≤ 100 * Real.sin ((45 : ℝ) * deg2rad) ∧
      100 * Real.sin ((45 : ℝ) * deg2rad) ≤ 70.7108 := by
  have hs := abs_sin_sub_le ((pi : ℝ) / 4) (Real.pi / 4)
  rw [Real.sin_pi_div_four] at hs
  have hs2 : |Real.sin ((pi : ℝ) / 4) - Real.sqrt 2 / 2| ≤ 1 / 4000000 :=
    hs.trans quarter_pi_close
  rw [abs_le] at hs2
  rw [angle45_rad]
  constructor <;> linarith [hs2.1, hs2.2, sqrt_two_bounds.1, sqrt_two_bounds.2]

lemma cos45_bounds :
    70.7105 ≤ 100 * Real.cos ((45 : ℝ) * deg2rad) ∧
      100 * Real.cos ((45 : ℝ) * deg2rad) ≤ 70.7108 := by
  have hs := abs_cos_sub_le ((pi : ℝ) / 4) (Real.pi / 4)
  rw [Real.cos_pi_div_four] at hs
  have hs2 : |Real.cos ((pi : ℝ) / 4) - Real.sqrt 2 / 2| ≤ 1 / 4000000 :=
    hs.trans quarter_pi_close
  rw [abs_le] at hs2
  rw [angle45_rad]
  constructor <;> linarith [hs2.1, hs2.2, sqrt_two_bounds.1, sqrt_two_bounds.2]

/-- C2 counterexample: in the concrete scenario (altitude 0, velocity 100 m/s,
angle 45°, dt = 0.01 s) the state after one step has
`horzVel = 100·cos(45°) ≈ 70.7107`, which differs from the claimed 70.6996 by
more than 0.01, so the claim is false even at a tolerance of 1/100 (the
claimed values are stated to six significant digits). -/
theorem concrete_scenario_claim_false :
    ¬ (|(rk4 (mainInitState 0 100 45) 0.01).vertVel - (70.6996 - g * 0.01)| ≤ 1 / 100 ∧
       |(rk4 (mainInitState 0 100 45) 0.01).horzVel - 70.6996| ≤ 1 / 100 ∧
       |(rk4 (mainInitState 0 100 45) 0.01).horzPos - 0.706996| ≤ 1 / 100) := by
  intro hc
  obtain ⟨-, h2, -⟩ := hc
  have hhv : (rk4 (mainInitState 0 100 45) 0.01).horzVel
      = 100 * Real.cos ((45 : ℝ) * deg2rad) := by
    rw [rk4_horzVel_eq]; rfl
  rw [hhv, abs_le] at h2
  linarith [h2.2, cos45_bounds.1]

/-- C2 amended: in the concrete scenario (altitude 0, velocity 100 m/s, angle
45°, dt = 0.01 s), after one step `vertVel ≈ 70.6126` (that is,
`≈ 70.7107 + g·0.01` with the program's negative `g`), `horzVel ≈ 70.7107`
(unchanged, the horizontal acceleration being 0), and `horzPos ≈ 0.707107`,
each within 1/1000. -/
theorem concrete_scenario_after_one_step :
    |(rk4 (mainInitState 0 100 45) 0.01).vertVel - 70.6126| ≤ 1 / 1000 ∧
    |(rk4 (mainInitState 0 100 45) 0.01).horzVel - 70.7107| ≤ 1 / 1000 ∧
    |(rk4 (mainInitState 0 100 45) 0.01).horzPos - 0.707107| ≤ 1 / 1000 := by
  have hV := sin45_bounds
  have hW := cos45_bounds
  have hg : (g : ℝ) = -9.80665 := rfl
  refine ⟨?_, ?_, ?_⟩
  · rw [rk4_vertVel_closed]
    have hs0p : (mainInitState 0 100 45).vertPos = 0 := rfl
    have hs0v : (mainInitState 0 100 45).vertVel
        = 100 * Real.sin ((45 : ℝ) * deg2rad) := rfl
    rw [hs0p, hs0v, vertAccAt_zero]
    have hb2 := vertAccAt_bounds
      (0 + 100 * Real.sin ((45 : ℝ) * deg2rad) * (0.01 / 2))
      (by nlinarith [hV.1]) (by nlinarith [hV.2])
    have hb3 := vertAccAt_bounds
      (0 + (100 * Real.sin ((45 : ℝ) * deg2rad) + g * (0.01 / 2)) * (0.01 / 2))
      (by nlinarith [hV.1, hg]) (by nlinarith [hV.2, hg])
    have hb4 := vertAccAt_bounds
      (0 + (100 * Real.sin ((45 : ℝ) * deg2rad)
          + vertAccAt (0 + 100 * Real.sin ((45 : ℝ) * deg2rad) * (0.01 / 2)) * (0.01 / 2))
        * 0.01)
      (by nlinarith [hV.1, hb2.1, hb2.2, hg]) (by nlinarith [hV.2, hb2.1, hb2.2, hg])
    rw [abs_le]
    constructor <;>
      nlinarith [hV.1, hV.2, hb2.1, hb2.2, hb3.1, hb3.2, hb4.1, hb4.2, hg]
  · have hhv : (rk4 (mainInitState 0 100 45) 0.01).horzVel
        = 100 * Real.cos ((45 : ℝ) * deg2rad) := by
      rw [rk4_horzVel_eq]; rfl
    rw [hhv, abs_le]
    constructor <;> linarith [hW.1, hW.2]
  · have hhp : (rk4 (mainInitState 0 100 45) 0.01).horzPos
        = 0 + 100 * Real.cos ((45 : ℝ) * deg2rad) * 0.01 := by
      rw [rk4_horzPos_eq]; rfl
    rw [hhp, abs_le]
    constructor <;> linarith [hW.1, hW.2]

end TrajectoryRK4
